import Mathlib

/-!
Shallow embedding of `src/script.js`: a browser to-do list with an activity
log, persisted in `localStorage` under the keys `tasks` and `logs`.

Strings of the program are modelled as `List Char`. The `localStorage` slots
are modelled as `Option (List Char)` (absent key = `none`). `JSON.stringify`
and `JSON.parse`, restricted to arrays of strings (the only shape this
program ever writes or reads), are modelled by `jsonStringify` and
`jsonParse` below; parse failures (thrown exceptions) are `none`.
-/

/-- A JavaScript string, modelled as its sequence of characters. -/
abbrev Str := List Char

/-- Coerce a Lean string literal to the `Str` model. -/
def str (s : String) : Str := s.data

namespace ToDoList

/-! ### JSON serialization, as produced by `JSON.stringify` on `string[]` -/

/-- Lower-case hexadecimal digit for `n < 16`. -/
def hexDigit (n : Nat) : Char :=
  if n < 10 then Char.ofNat (48 + n) else Char.ofNat (87 + n)

/-- How `JSON.stringify` escapes one character inside a quoted string:
quote and backslash get a backslash escape, the named control characters get
their two-character escapes, other control characters get a `\u00XX` escape,
and every other character is emitted verbatim. -/
def escapeChar (c : Char) : Str :=
  if c = '"' then ['\\', '"']
  else if c = '\\' then ['\\', '\\']
  else if c = '\x08' then ['\\', 'b']
  else if c = '\t' then ['\\', 't']
  else if c = '\n' then ['\\', 'n']
  else if c = '\x0c' then ['\\', 'f']
  else if c = '\r' then ['\\', 'r']
  else if c.toNat < 32 then
    ['\\', 'u', '0', '0', hexDigit (c.toNat / 16), hexDigit (c.toNat % 16)]
  else [c]

/-- The escaped body of a quoted JSON string. -/
def escBody : Str → Str
  | [] => []
  | c :: rest => escapeChar c ++ escBody rest

/-- Everything `JSON.stringify` emits after the closing quote of an array
element: either the closing bracket, or a comma and the next quoted element. -/
def serialRest : List Str → Str
  | [] => [']']
  | s :: rest => ',' :: ('"' :: (escBody s ++ ('"' :: serialRest rest)))

/-- `JSON.stringify` on an array of strings: `[` + comma-separated quoted
elements + `]`, with no interstitial whitespace. -/
def jsonStringify : List Str → Str
  | [] => ['[', ']']
  | s :: rest => '[' :: ('"' :: (escBody s ++ ('"' :: serialRest rest)))

/-! ### JSON parsing, as `JSON.parse` accepts the grammar written above -/

/-- Value of one hexadecimal digit character. -/
def parseHexDigit (c : Char) : Option Nat :=
  if 48 ≤ c.toNat ∧ c.toNat ≤ 57 then some (c.toNat - 48)
  else if 97 ≤ c.toNat ∧ c.toNat ≤ 102 then some (c.toNat - 87)
  else if 65 ≤ c.toNat ∧ c.toNat ≤ 70 then some (c.toNat - 55)
  else none

/-- Value of a four-digit hexadecimal escape. -/
def hex4 (a b c d : Char) : Option Nat :=
  match parseHexDigit a, parseHexDigit b, parseHexDigit c, parseHexDigit d with
  | some x, some y, some z, some w => some (((x * 16 + y) * 16 + z) * 16 + w)
  | _, _, _, _ => none

/-- The single-character JSON escapes. -/
def simpleEscape (c : Char) : Option Char :=
  if c = '"' then some '"'
  else if c = '\\' then some '\\'
  else if c = '/' then some '/'
  else if c = 'b' then some '\x08'
  else if c = 'f' then some '\x0c'
  else if c = 'n' then some '\n'
  else if c = 'r' then some '\r'
  else if c = 't' then some '\t'
  else none

/-- Scanner modes for the body of a serialized string array, one character at
a time: inside an element (`plain`), right after a backslash (`esc`), inside a
`\u` escape with `k` digits still expected and `val` the value so far (`hex`),
right after the closing quote of an element (`sep`), right after a comma
(`quo`), and after the closing bracket (`fin`). -/
inductive Mode where
  | plain
  | esc
  | hex (k : Nat) (val : Nat)
  | sep
  | quo
  | fin
deriving DecidableEq, Repr

/-- Character-level scanner for the tail of a `["..","..",..]` document (the
part after `["`): `acc` holds the characters of the current element in
reverse, `strs` the completed elements. Accepts exactly the JSON documents of
that shape (standard string escapes, no stray control characters, nothing
after the closing bracket) and returns the array elements in order. -/
def parseArrAux : Str → Mode → Str → List Str → Option (List Str)
  | [], mode, _, strs => match mode with
    | Mode.fin => some strs
    | _ => none
  | c :: rest, mode, acc, strs =>
    match mode with
    | Mode.plain =>
      if c = '"' then parseArrAux rest Mode.sep [] (strs ++ [acc.reverse])
      else if c = '\\' then parseArrAux rest Mode.esc acc strs
      else if c.toNat < 32 then none
      else parseArrAux rest Mode.plain (c :: acc) strs
    | Mode.esc =>
      if c = 'u' then parseArrAux rest (Mode.hex 4 0) acc strs
      else
        match simpleEscape c with
        | some ch => parseArrAux rest Mode.plain (ch :: acc) strs
        | none => none
    | Mode.hex k val =>
      match parseHexDigit c with
      | some d =>
        if k = 1 then parseArrAux rest Mode.plain (Char.ofNat (val * 16 + d) :: acc) strs
        else parseArrAux rest (Mode.hex (k - 1) (val * 16 + d)) acc strs
      | none => none
    | Mode.sep =>
      if c = ']' then parseArrAux rest Mode.fin [] strs
      else if c = ',' then parseArrAux rest Mode.quo [] strs
      else none
    | Mode.quo =>
      if c = '"' then parseArrAux rest Mode.plain [] strs
      else none
    | Mode.fin => none

/-- `JSON.parse` on the serialized form of an array of strings. -/
def jsonParse (l : Str) : Option (List Str) :=
  match l with
  | '[' :: (']' :: rest) => if rest.isEmpty then some [] else none
  | '[' :: ('"' :: rest) => parseArrAux rest Mode.plain [] []
  | _ => none

/-! ### Observer (`class Observer` in `script.js`) -/

/-- Broadcast events, recorded whenever `taskAdded.notify` / `taskRemoved.notify`
is called (the observable trace of `Observer.notify` broadcasts). -/
inductive Event where
  | added (t : Str)
  | removed (t : Str)
deriving DecidableEq, Repr

/-- The whole mutable state the script closes over: the two managers' lists,
the two `localStorage` slots, the two rendered `<ul>` lists (row labels in DOM
order), the entry field, the `alert` messages shown, and the trace of
notifications broadcast. -/
structure AppState where
  tasks : List Str
  logs : List Str
  storeTasks : Option Str
  storeLogs : Option Str
  taskListUI : List Str
  logListUI : List Str
  taskInput : Str
  alerts : List Str
  notified : List Event
deriving DecidableEq, Repr

/-- `class Observer`: an ordered list of subscribed callbacks. A JS callback
mutates shared state; here it is a state transformer. -/
structure Observer (α σ : Type) where
  subscribers : List (α → σ → σ)

/-- `subscribe(fn)`: `this.subscribers.push(fn)`. -/
def Observer.subscribe (o : Observer α σ) (fn : α → σ → σ) : Observer α σ :=
  ⟨o.subscribers ++ [fn]⟩

/-- `notify(data)`: `this.subscribers.forEach(fn => fn(data))`, in order. -/
def Observer.notify (o : Observer α σ) (data : α) (s : σ) : σ :=
  o.subscribers.foldl (fun st fn => fn data st) s

/-! ### TaskManager / LogManager storage helpers -/

/-- `saveTasksToStorage`: `localStorage.setItem('tasks', JSON.stringify(this.tasks))`. -/
def saveTasksToStorage (s : AppState) : AppState :=
  { s with storeTasks := some (jsonStringify s.tasks) }

/-- `saveLogsToStorage`: `localStorage.setItem('logs', JSON.stringify(this.logs))`. -/
def saveLogsToStorage (s : AppState) : AppState :=
  { s with storeLogs := some (jsonStringify s.logs) }

/-- `loadTasksFromStorage`: `const tasks = localStorage.getItem('tasks');
return tasks ? JSON.parse(tasks) : []`. An absent key (`null`) and the empty
string are falsy and yield `[]`; otherwise `JSON.parse` runs, and a thrown
parse error is `none`. -/
def loadTasksFromStorage (stored : Option Str) : Option (List Str) :=
  match stored with
  | none => some []
  | some v => if v = [] then some [] else jsonParse v

/-- `loadLogsFromStorage`: same as `loadTasksFromStorage`, on the `logs` key. -/
def loadLogsFromStorage (stored : Option Str) : Option (List Str) :=
  match stored with
  | none => some []
  | some v => if v = [] then some [] else jsonParse v

/-! ### LogManager mutations -/

/-- `LogManager.addLog(log)`: push, then `saveLogsToStorage()`. No Observer. -/
def addLog (lg : Str) (s : AppState) : AppState :=
  saveLogsToStorage { s with logs := s.logs ++ [lg] }

/-- `LogManager.removeLog(log)`: `this.logs = this.logs.filter(l => l !== log)`,
then `saveLogsToStorage()`. No Observer. -/
def removeLog (lg : Str) (s : AppState) : AppState :=
  saveLogsToStorage { s with logs := s.logs.filter (fun l => l ≠ lg) }

/-! ### UI rendering and the subscriptions made in `UI.init` -/

/-- `UI.addTaskToUI(task)`: append a row labelled `task` to `#taskList`. -/
def addTaskToUI (task : Str) (s : AppState) : AppState :=
  { s with taskListUI := s.taskListUI ++ [task] }

/-- `UI.addLogToUI(log)`: append a row labelled `log` to `#logList`. -/
def addLogToUI (lg : Str) (s : AppState) : AppState :=
  { s with logListUI := s.logListUI ++ [lg] }

/-- The log template for an addition: `Tâche ajoutée: "<task>"`. -/
def logAddedMsg (task : Str) : Str :=
  str "Tâche ajoutée: \x22" ++ task ++ [ '"' ]

/-- The log template for a removal: `Tâche supprimée: "<task>"`. -/
def logRemovedMsg (task : Str) : Str :=
  str "Tâche supprimée: \x22" ++ task ++ [ '"' ]

/-- The callback `UI.init` subscribes to `taskManager.taskAdded`: render the
task row, render the log row, and `logManager.addLog` the derived message. -/
def taskAddedCallback (task : Str) (s : AppState) : AppState :=
  addLog (logAddedMsg task) (addLogToUI (logAddedMsg task) (addTaskToUI task s))

/-- The callback `UI.init` subscribes to `taskManager.taskRemoved`: render the
log row and `logManager.addLog` the derived message (the task row itself is
removed by the row's own delete handler, not here). -/
def taskRemovedCallback (task : Str) (s : AppState) : AppState :=
  addLog (logRemovedMsg task) (addLogToUI (logRemovedMsg task) s)

/-- `taskManager.taskAdded` after `UI.init` ran: exactly one subscriber. -/
def taskAddedObserver : Observer Str AppState :=
  (Observer.mk []).subscribe taskAddedCallback

/-- `taskManager.taskRemoved` after `UI.init` ran: exactly one subscriber. -/
def taskRemovedObserver : Observer Str AppState :=
  (Observer.mk []).subscribe taskRemovedCallback

/-! ### TaskManager mutations (as reachable after `UI.init`) -/

/-- `TaskManager.addTask(task)`: push, `saveTasksToStorage()`, then
`this.taskAdded.notify(task)` (recorded in `notified`, then delivered to the
subscriber registered by `UI.init`). -/
def addTask (task : Str) (s : AppState) : AppState :=
  let s1 := saveTasksToStorage { s with tasks := s.tasks ++ [task] }
  taskAddedObserver.notify task { s1 with notified := s1.notified ++ [Event.added task] }

/-- `TaskManager.removeTask(task)`:
`this.tasks = this.tasks.filter(t => t !== task)`, `saveTasksToStorage()`,
then `this.taskRemoved.notify(task)`. -/
def removeTask (task : Str) (s : AppState) : AppState :=
  let s1 := saveTasksToStorage { s with tasks := s.tasks.filter (fun t => t ≠ task) }
  taskRemovedObserver.notify task { s1 with notified := s1.notified ++ [Event.removed task] }

/-! ### UI event handlers -/

/-- The ECMAScript white-space and line-terminator characters removed by
`String.prototype.trim`. -/
def jsWhitespace (c : Char) : Bool :=
  c == ' ' || c == '\t' || c == '\n' || c == '\r' || c == '\x0b' || c == '\x0c' ||
  c.toNat == 0xA0 || c.toNat == 0x1680 ||
  (0x2000 <= c.toNat && c.toNat <= 0x200A) ||
  c.toNat == 0x2028 || c.toNat == 0x2029 || c.toNat == 0x202F ||
  c.toNat == 0x205F || c.toNat == 0x3000 || c.toNat == 0xFEFF

/-- `String.prototype.trim`: strip `jsWhitespace` from both ends. -/
def jsTrim (s : Str) : Str :=
  ((s.dropWhile jsWhitespace).reverse.dropWhile jsWhitespace).reverse

/-- `UI.handleAddTask(taskInput)` (reached from the button click and from the
Enter key): trim the field; if truthy, `addTask` then clear the field, else
`alert("Veuillez saisir une tâche !")`. -/
def handleAddTask (s : AppState) : AppState :=
  let task := jsTrim s.taskInput
  if task = [] then { s with alerts := s.alerts ++ [str "Veuillez saisir une tâche !"] }
  else { addTask task s with taskInput := [] }

/-- The delete-button handler of the task row at index `i` labelled `task`:
`taskManager.removeTask(task)` then `li.remove()`. -/
def taskRowDeleteClick (task : Str) (i : Nat) (s : AppState) : AppState :=
  let s1 := removeTask task s
  { s1 with taskListUI := s1.taskListUI.eraseIdx i }

/-- The delete-button handler of the log row at index `i` labelled `lg`:
`logManager.removeLog(log)` then `li.remove()`. -/
def logRowDeleteClick (lg : Str) (i : Nat) (s : AppState) : AppState :=
  let s1 := removeLog lg s
  { s1 with logListUI := s1.logListUI.eraseIdx i }

/-- The `DOMContentLoaded` handler: construct `TaskManager` and `LogManager`
(loading both keys; a thrown parse error aborts, modelled as `none`), then
`UI.init` renders one row per existing task and per existing log, with a
fresh entry field and no alerts or notifications yet. -/
def initialState (st sl : Option Str) : Option AppState :=
  match loadTasksFromStorage st, loadLogsFromStorage sl with
  | some ts, some ls =>
    some { tasks := ts, logs := ls, storeTasks := st, storeLogs := sl,
           taskListUI := ts, logListUI := ls, taskInput := [],
           alerts := [], notified := [] }
  | _, _ => none

/-! ### The parser inverts the serializer -/

theorem parseHexDigit_hexDigit : ∀ m < 16, parseHexDigit (hexDigit m) = some m := by
  decide

/-- Step of `parseArrAux` on an ordinary character of an element. -/
theorem parseArrAux_plain (c : Char) (rest acc : Str) (strs : List Str)
    (h1 : ¬ c = '"') (h2 : ¬ c = '\\') (h3 : ¬ c.toNat < 32) :
    parseArrAux (c :: rest) Mode.plain acc strs =
      parseArrAux rest Mode.plain (c :: acc) strs := by
  rw [parseArrAux.eq_def]
  simp only []
  rw [if_neg h1, if_neg h2, if_neg h3]

/-- Step of `parseArrAux` on a non-final hexadecimal digit of a `\u` escape. -/
theorem parseArrAux_hex2 (d : Char) (m val : Nat) (rest acc : Str) (strs : List Str)
    (hd : parseHexDigit d = some m) :
    parseArrAux (d :: rest) (Mode.hex 2 val) acc strs =
      parseArrAux rest (Mode.hex 1 (val * 16 + m)) acc strs := by
  rw [parseArrAux.eq_def]
  simp only []
  rw [hd]
  simp only []
  rw [if_neg (by decide : ¬ (2 : Nat) = 1)]

/-- Step of `parseArrAux` on the final hexadecimal digit of a `\u` escape. -/
theorem parseArrAux_hex1 (d : Char) (m val : Nat) (rest acc : Str) (strs : List Str)
    (hd : parseHexDigit d = some m) :
    parseArrAux (d :: rest) (Mode.hex 1 val) acc strs =
      parseArrAux rest Mode.plain (Char.ofNat (val * 16 + m) :: acc) strs := by
  rw [parseArrAux.eq_def]
  simp only []
  rw [hd]
  simp

/-- Lemma A: consuming the escaped body of a string accumulates exactly that
string (reversed) and leaves the continuation untouched. -/
theorem parseArrAux_escBody (s : Str) :
    ∀ (r acc : Str) (strs : List Str),
      parseArrAux (escBody s ++ r) Mode.plain acc strs =
        parseArrAux r Mode.plain (s.reverse ++ acc) strs := by
  induction s with
  | nil => intro r acc strs; simp [escBody]
  | cons c s ih =>
    intro r acc strs
    rw [escBody, List.append_assoc]
    by_cases h1 : c = '"'
    · subst h1
      rw [show escapeChar '"' = ['\\', '"'] from by decide]
      simp only [List.cons_append, List.nil_append]
      rw [show parseArrAux ('\\' :: ('"' :: (escBody s ++ r))) Mode.plain acc strs
            = parseArrAux (escBody s ++ r) Mode.plain ('"' :: acc) strs from rfl]
      rw [ih]
      simp
    · by_cases h2 : c = '\\'
      · subst h2
        rw [show escapeChar '\\' = ['\\', '\\'] from by decide]
        simp only [List.cons_append, List.nil_append]
        rw [show parseArrAux ('\\' :: ('\\' :: (escBody s ++ r))) Mode.plain acc strs
              = parseArrAux (escBody s ++ r) Mode.plain ('\\' :: acc) strs from rfl]
        rw [ih]
        simp
      · by_cases h3 : c = '\x08'
        · subst h3
          rw [show escapeChar '\x08' = ['\\', 'b'] from by decide]
          simp only [List.cons_append, List.nil_append]
          rw [show parseArrAux ('\\' :: ('b' :: (escBody s ++ r))) Mode.plain acc strs
                = parseArrAux (escBody s ++ r) Mode.plain ('\x08' :: acc) strs from rfl]
          rw [ih]
          simp
        · by_cases h4 : c = '\t'
          · subst h4
            rw [show escapeChar '\t' = ['\\', 't'] from by decide]
            simp only [List.cons_append, List.nil_append]
            rw [show parseArrAux ('\\' :: ('t' :: (escBody s ++ r))) Mode.plain acc strs
                  = parseArrAux (escBody s ++ r) Mode.plain ('\t' :: acc) strs from rfl]
            rw [ih]
            simp
          · by_cases h5 : c = '\n'
            · subst h5
              rw [show escapeChar '\n' = ['\\', 'n'] from by decide]
              simp only [List.cons_append, List.nil_append]
              rw [show parseArrAux ('\\' :: ('n' :: (escBody s ++ r))) Mode.plain acc strs
                    = parseArrAux (escBody s ++ r) Mode.plain ('\n' :: acc) strs from rfl]
              rw [ih]
              simp
            · by_cases h6 : c = '\x0c'
              · subst h6
                rw [show escapeChar '\x0c' = ['\\', 'f'] from by decide]
                simp only [List.cons_append, List.nil_append]
                rw [show parseArrAux ('\\' :: ('f' :: (escBody s ++ r))) Mode.plain acc strs
                      = parseArrAux (escBody s ++ r) Mode.plain ('\x0c' :: acc) strs from rfl]
                rw [ih]
                simp
              · by_cases h7 : c = '\r'
                · subst h7
                  rw [show escapeChar '\r' = ['\\', 'r'] from by decide]
                  simp only [List.cons_append, List.nil_append]
                  rw [show parseArrAux ('\\' :: ('r' :: (escBody s ++ r))) Mode.plain acc strs
                        = parseArrAux (escBody s ++ r) Mode.plain ('\r' :: acc) strs from rfl]
                  rw [ih]
                  simp
                · by_cases h8 : c.toNat < 32
                  · rw [show escapeChar c =
                        ['\\', 'u', '0', '0', hexDigit (c.toNat / 16), hexDigit (c.toNat % 16)]
                      from by simp [escapeChar, h1, h2, h3, h4, h5, h6, h7, h8]]
                    simp only [List.cons_append, List.nil_append]
                    rw [show parseArrAux ('\\' :: ('u' :: ('0' :: ('0' ::
                            (hexDigit (c.toNat / 16) :: (hexDigit (c.toNat % 16) ::
                              (escBody s ++ r))))))) Mode.plain acc strs
                          = parseArrAux (hexDigit (c.toNat / 16) ::
                              (hexDigit (c.toNat % 16) :: (escBody s ++ r)))
                              (Mode.hex 2 0) acc strs from rfl]
                    rw [parseArrAux_hex2 _ _ _ _ _ _
                          (parseHexDigit_hexDigit (c.toNat / 16) (by omega))]
                    rw [parseArrAux_hex1 _ _ _ _ _ _
                          (parseHexDigit_hexDigit (c.toNat % 16) (by omega))]
                    rw [show Char.ofNat ((0 * 16 + c.toNat / 16) * 16 + c.toNat % 16) = c from by
                          rw [show (0 * 16 + c.toNat / 16) * 16 + c.toNat % 16 = c.toNat from by
                                omega]
                          exact Char.ofNat_toNat c]
                    rw [ih]
                    simp
                  · rw [show escapeChar c = [c]
                      from by simp [escapeChar, h1, h2, h3, h4, h5, h6, h7, h8]]
                    simp only [List.cons_append, List.nil_append]
                    rw [parseArrAux_plain c _ _ _ h1 h2 h8, ih]
                    simp

/-- Lemma B: after the closing quote of an element, the parser returns the
completed elements followed by the remaining serialized elements. -/
theorem parseArrAux_serialRest (ls : List Str) :
    ∀ (strs : List Str),
      parseArrAux (serialRest ls) Mode.sep [] strs = some (strs ++ ls) := by
  induction ls with
  | nil =>
    intro strs
    rw [serialRest, show parseArrAux [']'] Mode.sep [] strs = some strs from rfl]
    simp
  | cons s ls ih =>
    intro strs
    rw [serialRest]
    rw [show parseArrAux (',' :: ('"' :: (escBody s ++ ('"' :: serialRest ls))))
            Mode.sep [] strs
          = parseArrAux (escBody s ++ ('"' :: serialRest ls)) Mode.plain [] strs from rfl]
    rw [parseArrAux_escBody]
    have hq : parseArrAux ('"' :: serialRest ls) Mode.plain (s.reverse ++ []) strs
        = parseArrAux (serialRest ls) Mode.sep [] (strs ++ [(s.reverse ++ []).reverse]) := rfl
    rw [hq, ih]
    simp

/-- The serialize-then-parse round trip: `JSON.parse` recovers exactly the
array of strings that `JSON.stringify` wrote. -/
theorem jsonParse_jsonStringify (l : List Str) : jsonParse (jsonStringify l) = some l := by
  cases l with
  | nil => rfl
  | cons s ls =>
    rw [jsonStringify]
    show parseArrAux (escBody s ++ ('"' :: serialRest ls)) Mode.plain [] [] = some (s :: ls)
    rw [parseArrAux_escBody]
    have hq : parseArrAux ('"' :: serialRest ls) Mode.plain (s.reverse ++ []) []
        = parseArrAux (serialRest ls) Mode.sep [] ([] ++ [(s.reverse ++ []).reverse]) := rfl
    rw [hq, parseArrAux_serialRest]
    simp

/-- The serializer never writes the empty string (it always opens with `[`). -/
theorem jsonStringify_ne_nil (l : List Str) : jsonStringify l ≠ [] := by
  cases l <;> simp [jsonStringify]


/-! ### Projection equations for the mutating operations -/

theorem addTask_tasks (t : Str) (s : AppState) : (addTask t s).tasks = s.tasks ++ [t] := rfl

theorem addTask_logs (t : Str) (s : AppState) :
    (addTask t s).logs = s.logs ++ [logAddedMsg t] := rfl

theorem addTask_storeTasks (t : Str) (s : AppState) :
    (addTask t s).storeTasks = some (jsonStringify (s.tasks ++ [t])) := rfl

theorem addTask_storeLogs (t : Str) (s : AppState) :
    (addTask t s).storeLogs = some (jsonStringify (s.logs ++ [logAddedMsg t])) := rfl

theorem addTask_notified (t : Str) (s : AppState) :
    (addTask t s).notified = s.notified ++ [Event.added t] := rfl

theorem removeTask_tasks (v : Str) (s : AppState) :
    (removeTask v s).tasks = s.tasks.filter (fun t => t ≠ v) := rfl

theorem removeTask_logs (v : Str) (s : AppState) :
    (removeTask v s).logs = s.logs ++ [logRemovedMsg v] := rfl

theorem removeTask_storeTasks (v : Str) (s : AppState) :
    (removeTask v s).storeTasks
      = some (jsonStringify (s.tasks.filter (fun t => t ≠ v))) := rfl

theorem removeTask_storeLogs (v : Str) (s : AppState) :
    (removeTask v s).storeLogs
      = some (jsonStringify (s.logs ++ [logRemovedMsg v])) := rfl

theorem removeTask_notified (v : Str) (s : AppState) :
    (removeTask v s).notified = s.notified ++ [Event.removed v] := rfl

theorem addLog_logs (m : Str) (s : AppState) : (addLog m s).logs = s.logs ++ [m] := rfl

theorem removeLog_logs (m : Str) (s : AppState) :
    (removeLog m s).logs = s.logs.filter (fun l => l ≠ m) := rfl

theorem removeLog_notified (m : Str) (s : AppState) :
    (removeLog m s).notified = s.notified := rfl

theorem logRowDeleteClick_logs (m : Str) (i : Nat) (s : AppState) :
    (logRowDeleteClick m i s).logs = s.logs.filter (fun l => l ≠ m) := rfl

theorem logRowDeleteClick_notified (m : Str) (i : Nat) (s : AppState) :
    (logRowDeleteClick m i s).notified = s.notified := rfl

/-- A small concrete state, used only to instantiate the universally
quantified theorems below at explicit inputs. -/
def demoState (ts ls : List Str) : AppState :=
  { tasks := ts, logs := ls, storeTasks := none, storeLogs := none,
    taskListUI := ts, logListUI := ls, taskInput := [], alerts := [],
    notified := [] }

/-! ### The claims -/

/-- Claim C1: for every task-collection state and value `v`, when `v` occurs
more than once in the task sequence, `removeTask v` removes all occurrences in
that single call, leaving no element equal to `v`. -/
theorem removeTask_removes_every_occurrence (s : AppState) (v : Str)
    (_h : 1 < s.tasks.count v) :
    (removeTask v s).tasks.count v = 0 ∧ v ∉ (removeTask v s).tasks := by
  rw [removeTask_tasks]
  have hv : v ∉ s.tasks.filter (fun t => t ≠ v) := by
    intro hmem
    have := (List.mem_filter.mp hmem).2
    simp at this
  exact ⟨List.count_eq_zero.mpr hv, hv⟩

/-- Witness for C1 at a state holding the duplicate task `a` twice. -/
theorem removeTask_removes_every_occurrence_w :
    1 < (demoState [str "a", str "a"] []).tasks.count (str "a") ∧
    ((removeTask (str "a") (demoState [str "a", str "a"] [])).tasks.count (str "a") = 0 ∧
      str "a" ∉ (removeTask (str "a") (demoState [str "a", str "a"] [])).tasks) :=
  ⟨by decide, removeTask_removes_every_occurrence (demoState [str "a", str "a"] [])
    (str "a") (by decide)⟩

/-- Claim C2 counterexample: the log entry appended by an addition is the
French template `Tâche ajoutée: "x"`, not the string `Task added: "x"` the
claim names, so the claim as stated is false at this input. -/
theorem addTask_log_template_counterexample :
    (addTask (str "x") (demoState [] [])).logs ≠ [str "Task added: \x22x\x22"] := by
  decide

/-- Claim C2 (amended): each task addition appends exactly one log entry
`Tâche ajoutée: "<t>"` and each removal exactly one `Tâche supprimée: "<t>"`,
and these events produce no other log entries. -/
theorem task_events_log_exactly_one (s : AppState) (t : Str) :
    (addTask t s).logs = s.logs ++ [logAddedMsg t] ∧
    (removeTask t s).logs = s.logs ++ [logRemovedMsg t] :=
  ⟨rfl, rfl⟩

/-- Claim C3: immediately after each mutating operation the persisted
serialized form under the mutated collection's key equals the serialization
of the current in-memory sequence (and a task mutation, which also appends a
log entry, leaves both keys synchronized). -/
theorem storage_synced_after_mutations (s : AppState) (t : Str) :
    (addTask t s).storeTasks = some (jsonStringify (addTask t s).tasks) ∧
    (addTask t s).storeLogs = some (jsonStringify (addTask t s).logs) ∧
    (removeTask t s).storeTasks = some (jsonStringify (removeTask t s).tasks) ∧
    (removeTask t s).storeLogs = some (jsonStringify (removeTask t s).logs) ∧
    (addLog t s).storeLogs = some (jsonStringify (addLog t s).logs) ∧
    (removeLog t s).storeLogs = some (jsonStringify (removeLog t s).logs) :=
  ⟨rfl, rfl, rfl, rfl, rfl, rfl⟩

/-- Claim C4: submitting a field whose trim is empty appends the blocking
warning and changes nothing else (in particular neither collection nor either
persisted copy); a non-empty trim calls `addTask` with the trimmed text and
clears the field. -/
theorem handleAddTask_validation (s : AppState) :
    (jsTrim s.taskInput = [] →
      handleAddTask s
        = { s with alerts := s.alerts ++ [str "Veuillez saisir une tâche !"] }) ∧
    (jsTrim s.taskInput ≠ [] →
      handleAddTask s = { addTask (jsTrim s.taskInput) s with taskInput := [] }) := by
  constructor
  · intro h
    simp [handleAddTask, h]
  · intro h
    simp [handleAddTask, h]

/-- Witness for C4: a whitespace-only entry is rejected with the warning, a
padded entry is added trimmed and the field cleared. -/
theorem handleAddTask_validation_w :
    (jsTrim (str "  ") = [] ∧
      handleAddTask { demoState [] [] with taskInput := str "  " }
        = { { demoState [] [] with taskInput := str "  " } with
            alerts := ({ demoState [] [] with taskInput := str "  " }).alerts
              ++ [str "Veuillez saisir une tâche !"] }) ∧
    (jsTrim (str " a ") ≠ [] ∧
      handleAddTask { demoState [] [] with taskInput := str " a " }
        = { addTask (jsTrim (str " a ")) { demoState [] [] with taskInput := str " a " } with
            taskInput := [] }) :=
  ⟨⟨by decide,
    (handleAddTask_validation { demoState [] [] with taskInput := str "  " }).1 (by decide)⟩,
   ⟨by decide,
    (handleAddTask_validation { demoState [] [] with taskInput := str " a " }).2 (by decide)⟩⟩

/-- Claim C5: `addTask t` appends `t` at the end of the task sequence,
persists the updated sequence, and broadcasts exactly one added notification
carrying `t`. -/
theorem addTask_appends_persists_notifies (s : AppState) (t : Str) :
    (addTask t s).tasks = s.tasks ++ [t] ∧
    (addTask t s).storeTasks = some (jsonStringify (s.tasks ++ [t])) ∧
    (addTask t s).notified = s.notified ++ [Event.added t] :=
  ⟨rfl, rfl, rfl⟩

/-- Claim C6: persisting a sequence and loading it back from the same key
yields the identical sequence, for both collections. -/
theorem persist_then_load_roundtrip (s : AppState) :
    loadTasksFromStorage (saveTasksToStorage s).storeTasks = some s.tasks ∧
    loadLogsFromStorage (saveLogsToStorage s).storeLogs = some s.logs := by
  constructor
  · show loadTasksFromStorage (some (jsonStringify s.tasks)) = some s.tasks
    simp [loadTasksFromStorage, jsonStringify_ne_nil, jsonParse_jsonStringify]
  · show loadLogsFromStorage (some (jsonStringify s.logs)) = some s.logs
    simp [loadLogsFromStorage, jsonStringify_ne_nil, jsonParse_jsonStringify]

/-- Claim C7: an absent key loads as the empty sequence with no error, and
constructing the managers over two absent keys yields empty collections. -/
theorem absent_key_empty_collections :
    loadTasksFromStorage none = some [] ∧
    loadLogsFromStorage none = some [] ∧
    initialState none none
      = some { tasks := [], logs := [], storeTasks := none, storeLogs := none,
               taskListUI := [], logListUI := [], taskInput := [], alerts := [],
               notified := [] } :=
  ⟨rfl, rfl, rfl⟩

/-- Claim C8: deleting a log row removes by value from the log collection,
broadcasts no notification, and never appends any further log entry (the
resulting log sequence is a subsequence of the old one). -/
theorem removeLog_never_adds_logs (s : AppState) (lg : Str) (i : Nat) :
    (logRowDeleteClick lg i s).logs = s.logs.filter (fun l => l ≠ lg) ∧
    List.Sublist (logRowDeleteClick lg i s).logs s.logs ∧
    (logRowDeleteClick lg i s).notified = s.notified ∧
    ∀ x ∈ (logRowDeleteClick lg i s).logs, x ∈ s.logs := by
  refine ⟨rfl, ?_, rfl, ?_⟩
  · rw [logRowDeleteClick_logs]
    exact List.filter_sublist s.logs
  · intro x hx
    rw [logRowDeleteClick_logs] at hx
    exact (List.mem_filter.mp hx).1

/-- Witness for C8 at a two-entry log collection. -/
theorem removeLog_never_adds_logs_w :
    (logRowDeleteClick (str "x") 0 (demoState [] [str "x", str "y"])).logs
        = (demoState [] [str "x", str "y"]).logs.filter (fun l => l ≠ str "x") ∧
    List.Sublist (logRowDeleteClick (str "x") 0 (demoState [] [str "x", str "y"])).logs
        (demoState [] [str "x", str "y"]).logs ∧
    (logRowDeleteClick (str "x") 0 (demoState [] [str "x", str "y"])).notified
        = (demoState [] [str "x", str "y"]).notified ∧
    str "y" ∈ (demoState [] [str "x", str "y"]).logs := by
  have h := removeLog_never_adds_logs (demoState [] [str "x", str "y"]) (str "x") 0
  exact ⟨h.1, h.2.1, h.2.2.1, h.2.2.2 (str "y") (by decide)⟩

/-- Claim C9: removing a value absent from the task sequence leaves the
sequence unchanged, still rewrites the persisted copy, still broadcasts one
removed notification, and still appends a task-removed log entry. -/
theorem removeTask_absent_value (s : AppState) (v : Str) (h : v ∉ s.tasks) :
    (removeTask v s).tasks = s.tasks ∧
    (removeTask v s).storeTasks = some (jsonStringify s.tasks) ∧
    (removeTask v s).notified = s.notified ++ [Event.removed v] ∧
    (removeTask v s).logs = s.logs ++ [logRemovedMsg v] ∧
    (removeTask v s).storeLogs = some (jsonStringify (s.logs ++ [logRemovedMsg v])) := by
  have hf : s.tasks.filter (fun t => t ≠ v) = s.tasks := by
    refine List.filter_eq_self.mpr ?_
    intro a ha
    simp only [ne_eq, decide_eq_true_eq]
    intro hav
    exact h (hav ▸ ha)
  refine ⟨?_, ?_, rfl, rfl, rfl⟩
  · rw [removeTask_tasks, hf]
  · rw [removeTask_storeTasks, hf]

/-- Witness for C9: removing `z`, absent from a one-task state. -/
theorem removeTask_absent_value_w :
    str "z" ∉ (demoState [str "a"] []).tasks ∧
    ((removeTask (str "z") (demoState [str "a"] [])).tasks
        = (demoState [str "a"] []).tasks ∧
      (removeTask (str "z") (demoState [str "a"] [])).storeTasks
        = some (jsonStringify (demoState [str "a"] []).tasks) ∧
      (removeTask (str "z") (demoState [str "a"] [])).notified
        = (demoState [str "a"] []).notified ++ [Event.removed (str "z")] ∧
      (removeTask (str "z") (demoState [str "a"] [])).logs
        = (demoState [str "a"] []).logs ++ [logRemovedMsg (str "z")] ∧
      (removeTask (str "z") (demoState [str "a"] [])).storeLogs
        = some (jsonStringify ((demoState [str "a"] []).logs
            ++ [logRemovedMsg (str "z")]))) :=
  ⟨by decide, removeTask_absent_value (demoState [str "a"] []) (str "z") (by decide)⟩

/-- Claim C10: removal (for tasks and for logs alike) keeps the surviving
elements in their original relative order: the result is a subsequence of the
original holding exactly the elements different from the removed value, with
their multiplicities intact. -/
theorem remove_preserves_relative_order (s : AppState) (v : Str) :
    List.Sublist (removeTask v s).tasks s.tasks ∧
    (∀ x, x ∈ (removeTask v s).tasks ↔ (x ∈ s.tasks ∧ x ≠ v)) ∧
    (∀ x, x ≠ v → (removeTask v s).tasks.count x = s.tasks.count x) ∧
    (removeTask v s).tasks.count v = 0 ∧
    List.Sublist (removeLog v s).logs s.logs ∧
    (∀ x, x ∈ (removeLog v s).logs ↔ (x ∈ s.logs ∧ x ≠ v)) ∧
    (∀ x, x ≠ v → (removeLog v s).logs.count x = s.logs.count x) ∧
    (removeLog v s).logs.count v = 0 := by
  rw [removeTask_tasks, removeLog_logs]
  refine ⟨List.filter_sublist s.tasks, ?_, ?_, ?_, List.filter_sublist s.logs, ?_, ?_, ?_⟩
  · intro x
    rw [List.mem_filter]
    simp
  · intro x hx
    rw [List.count_filter]
    simp [hx]
  · rw [List.count_eq_zero]
    intro hmem
    have := (List.mem_filter.mp hmem).2
    simp at this
  · intro x
    rw [List.mem_filter]
    simp
  · intro x hx
    rw [List.count_filter]
    simp [hx]
  · rw [List.count_eq_zero]
    intro hmem
    have := (List.mem_filter.mp hmem).2
    simp at this

/-- Witness for C10 on concrete collections with duplicates. -/
theorem remove_preserves_relative_order_w :
    List.Sublist (removeTask (str "b") (demoState [str "a", str "b", str "c"] [])).tasks
      (demoState [str "a", str "b", str "c"] []).tasks ∧
    (str "c" ∈ (removeTask (str "b") (demoState [str "a", str "b", str "c"] [])).tasks ↔
      (str "c" ∈ (demoState [str "a", str "b", str "c"] []).tasks ∧ str "c" ≠ str "b")) ∧
    (removeTask (str "b") (demoState [str "a", str "b", str "c"] [])).tasks.count (str "a")
      = (demoState [str "a", str "b", str "c"] []).tasks.count (str "a") ∧
    (removeTask (str "b") (demoState [str "a", str "b", str "c"] [])).tasks.count (str "b")
      = 0 ∧
    (removeLog (str "b") (demoState [] [str "b", str "y"])).logs.count (str "b") = 0 := by
  have h1 := remove_preserves_relative_order (demoState [str "a", str "b", str "c"] [])
    (str "b")
  have h2 := remove_preserves_relative_order (demoState [] [str "b", str "y"]) (str "b")
  exact ⟨h1.1, h1.2.1 (str "c"), h1.2.2.1 (str "a") (by decide), h1.2.2.2.1,
    h2.2.2.2.2.2.2.2⟩

end ToDoList

/-! ### Concrete sanity checks of the serialization model -/

example : ToDoList.jsonStringify [str "ab", str "c"] = str "[\x22ab\x22,\x22c\x22]" := by decide

example : ToDoList.jsonParse (str "[\x22ab\x22,\x22c\x22]") = some [str "ab", str "c"] := by decide

example : ToDoList.jsonParse (ToDoList.jsonStringify [str "a\n\x22b\x22", str "\\x"]) =
    some [str "a\n\x22b\x22", str "\\x"] := by decide

example : ToDoList.jsonParse (ToDoList.jsonStringify [[Char.ofNat 1, Char.ofNat 31]]) =
    some [[Char.ofNat 1, Char.ofNat 31]] := by decide
